import Mathlib

/-!
Shallow embedding of the darity KVM client library (src/darity.go) and
verification of its specification claims.

Modelling conventions:
  * Machine integers (`uint32`, `uint64`, `uintptr`) are `Nat` values; where
    the Go code performs a narrowing conversion or where unsigned wraparound
    matters, the embedding takes the value modulo `2 ^ 32` / `2 ^ 64`.
  * The pluggable `ioctl` primitive (`ioctlFunc` in Go) is modelled as a
    state-passing function so that stand-in primitives can record the calls
    they receive, exactly as the repository's own tests do with closures.
    The Go `(uintptr, error)` return pair becomes `Nat × Option GoError`.
  * The `ioctl` field stored inside `Client` and `VM` is passed as an
    explicit argument to each operation instead.
  * `make([]byte, n)` is modelled as an allocation that yields a backing
    buffer of length `n` at a host address supplied per call (`allocAddr`);
    host memory exhaustion is not modelled.  Two definite runtime panics of
    the Go code are modelled: `make` with a length above the maximum `int`
    (`2 ^ 63 - 1` on linux/amd64) panics, and taking `&memory[0]` of an
    empty slice panics with an index-out-of-range error.
  * `os.File` descriptors are `Nat` values; whether `Close` was called on
    the device during `New` is reported by an explicit `closed` flag.
-/

namespace Darity

/-- Expected KVM API version (`Version` in darity.go). -/
def Version : Nat := 12

/-- Fixed VCPU cap (`kvmCapNrVCPUS` in darity.go). -/
def kvmCapNrVCPUS : Nat := 9

/-- ioctl request code KVM_GET_API_VERSION. -/
def kvmGetAPIVersion : Nat := 44544

/-- ioctl request code KVM_CREATE_VM. -/
def kvmCreateVM : Nat := 44545

/-- ioctl request code KVM_CREATE_VCPU. -/
def kvmCreateVCPU : Nat := 44609

/-- ioctl request code KVM_SET_USER_MEMORY_REGION. -/
def kvmSetUserMemoryRegion : Nat := 1075883590

/-- Modulus of Go's `uint32`. -/
def U32 : Nat := 2 ^ 32

/-- Modulus of Go's `uint64` and `uintptr` (64-bit platform). -/
def U64 : Nat := 2 ^ 64

/-- Largest Go `int` on a 64-bit platform: the maximum slice length
`make([]byte, n)` accepts without a run-time panic. -/
def maxInt : Nat := 2 ^ 63 - 1

/-- Errors a darity operation can return (Go `error` values relevant to the
library: its two sentinel errors, the ad-hoc `errors.New` value used when a
memory-slot registration is rejected, and kernel-reported syscall errors). -/
inductive GoError where
  | errIncorrectVersion
  | errTooManyVCPUS
  | failedToAddMemorySlot
  | syscallError (errno : Nat)
deriving DecidableEq

/-- The run-time panics of the Go code that the embedding models. -/
inductive PanicKind where
  | indexOutOfRange
  | makeSliceLenOutOfRange
deriving DecidableEq

/-- Result of a Go call: a normal return, an `error` return, or a panic. -/
inductive GoOutcome where
  | ok
  | error (e : GoError)
  | panicked (k : PanicKind)
deriving DecidableEq

/-- `MemorySlot` record (darity.go): the five exported fields plus the
length of the private backing `memory` slice. -/
structure MemorySlot where
  Slot : Nat
  Flags : Nat
  GuestPhysAddr : Nat
  MemorySize : Nat
  UserspaceAddr : Nat
  memory : Nat
deriving DecidableEq

/-- `kvmUserspaceMemoryRegion` wire struct (darity.go). -/
structure KvmUserspaceMemoryRegion where
  slot : Nat
  flags : Nat
  guestPhysAddr : Nat
  memorySize : Nat
  userspaceAddr : Nat
deriving DecidableEq

/-- The argument of an ioctl request: an inline scalar, or the address of a
`kvmUserspaceMemoryRegion` struct (modelled by the struct value itself, which
is what a recording stand-in primitive observes through the pointer). -/
inductive IoctlArg where
  | scalar (n : Nat)
  | region (m : KvmUserspaceMemoryRegion)
deriving DecidableEq

/-- One invocation of the request primitive, as observed by a recording
stand-in: file descriptor, request code, argument. -/
structure IoctlCall where
  fd : Nat
  request : Nat
  argp : IoctlArg
deriving DecidableEq

/-- The pluggable request primitive (`ioctlFunc` in Go), threaded through an
oracle state `σ` so that stand-ins can record calls or script responses.
Given the state, the descriptor, the request code and the argument, it
returns Go's `(uintptr, error)` pair and the next state. -/
def IoctlFunc (σ : Type) : Type :=
  σ → Nat → Nat → IoctlArg → (Nat × Option GoError) × σ

/-- `Client` (darity.go): holds the device-level descriptor.  The `ioctl`
field is passed explicitly to each operation. -/
structure Client where
  kvm : Nat
deriving DecidableEq

/-- `VM` (darity.go): ordered memory-slot sequence, the VM-level descriptor,
and the single stored VCPU descriptor (zero value `0` before any AddVCPU). -/
structure VM where
  Memory : List MemorySlot
  fd : Nat
  vcpufd : Nat
deriving DecidableEq

/-- Base address for the next slot (inlined in `VM.AddMemorySlot`): the last
slot's `GuestPhysAddr + MemorySize` in `uint64` arithmetic, or 0 when the
slot list is empty. -/
def nextGPA (l : List MemorySlot) : Nat :=
  match l.getLast? with
  | none => 0
  | some last => (last.GuestPhysAddr + last.MemorySize) % U64

/-- `Client.APIVersion`: a single `KVM_GET_API_VERSION` ioctl with argument 0.
Go truncates the returned `uintptr` with `int(v)`, a value-preserving
bijection on 64-bit words, so the raw result is returned here. -/
def APIVersion (io : IoctlFunc σ) (c : Client) (s : σ) :
    (Nat × Option GoError) × σ :=
  io s c.kvm kvmGetAPIVersion (IoctlArg.scalar 0)

/-- `Client.CreateVM`: a single `KVM_CREATE_VM` ioctl with the machine type
as scalar argument; on success wraps the returned descriptor in a `VM` with
an empty `Memory` sequence (and zero-valued `vcpufd`). -/
def CreateVM (io : IoctlFunc σ) (c : Client) (s : σ) (t : Nat) :
    Except GoError VM × σ :=
  let res := io s c.kvm kvmCreateVM (IoctlArg.scalar t)
  match res.1.2 with
  | some e => (Except.error e, res.2)
  | none => (Except.ok ⟨[], res.1.1, 0⟩, res.2)

/-- Result of `New`: the returned client or error, whether `Close` was called
on the freshly opened device descriptor before returning, and the final
oracle state. -/
structure NewResult (σ : Type) where
  result : Except GoError Client
  closed : Bool
  finalState : σ

/-- `New` (darity.go), from the point where `os.OpenFile("/dev/kvm", ...)`
has succeeded with descriptor `fd` (an open failure returns that error before
any ioctl; it is outside the pluggable primitive).  Verifies the API version
via `APIVersion`, closing the device and failing on an ioctl error or on a
version different from `Version`. -/
def New (io : IoctlFunc σ) (fd : Nat) (s : σ) : NewResult σ :=
  let c : Client := ⟨fd⟩
  let res := APIVersion io c s
  match res.1.2 with
  | some e => ⟨Except.error e, true, res.2⟩
  | none =>
    if res.1.1 ≠ Version then ⟨Except.error GoError.errIncorrectVersion, true, res.2⟩
    else ⟨Except.ok c, false, res.2⟩

/-- `VM.AddMemorySlot` (darity.go).  `allocAddr` is the host-virtual address
at which `make([]byte, n)` placed the backing buffer.  Mirrors the source
step by step: allocate (panicking above the maximum slice length), compute
the slot index `uint32(len(v.Memory))`, the packed `guestPhysAddr`, take
`&memory[0]` (panicking when the buffer is empty), issue the registration
ioctl, fail on an ioctl error or a non-zero result, and otherwise append the
new slot.  Returns the outcome, the updated VM and the oracle state. -/
def AddMemorySlot (io : IoctlFunc σ) (v : VM) (s : σ) (n fl allocAddr : Nat) :
    GoOutcome × VM × σ :=
  if maxInt < n then (GoOutcome.panicked PanicKind.makeSliceLenOutOfRange, v, s)
  else
    let slot := v.Memory.length % U32
    let guestPhysAddr := nextGPA v.Memory
    let uFlags := fl % U32
    if n = 0 then (GoOutcome.panicked PanicKind.indexOutOfRange, v, s)
    else
      let uUserspaceAddr := allocAddr % U64
      let m : KvmUserspaceMemoryRegion :=
        ⟨slot, uFlags, guestPhysAddr, n, uUserspaceAddr⟩
      let res := io s v.fd kvmSetUserMemoryRegion (IoctlArg.region m)
      match res.1.2 with
      | some e => (GoOutcome.error e, v, res.2)
      | none =>
        if res.1.1 ≠ 0 then (GoOutcome.error GoError.failedToAddMemorySlot, v, res.2)
        else
          (GoOutcome.ok,
            ⟨v.Memory ++ [⟨slot, uFlags, guestPhysAddr, n, uUserspaceAddr, n⟩],
              v.fd, v.vcpufd⟩,
            res.2)

/-- `VM.AddVCPU` (darity.go): reject `n` above the cap before any ioctl,
otherwise a single `KVM_CREATE_VCPU` ioctl with scalar argument `n`, storing
the returned descriptor in `vcpufd` on success. -/
def AddVCPU (io : IoctlFunc σ) (v : VM) (s : σ) (n : Nat) :
    GoOutcome × VM × σ :=
  if kvmCapNrVCPUS < n then (GoOutcome.error GoError.errTooManyVCPUS, v, s)
  else
    let res := io s v.fd kvmCreateVCPU (IoctlArg.scalar n)
    match res.1.2 with
    | some e => (GoOutcome.error e, v, res.2)
    | none => (GoOutcome.ok, ⟨v.Memory, v.fd, res.1.1⟩, res.2)

/-- Stand-in primitive that always reports success with result 0 (the
success sentinel of `KVM_SET_USER_MEMORY_REGION`). -/
def okIoctl : IoctlFunc Unit := fun s _ _ _ => ((0, none), s)

/-- Stand-in primitive with a fixed response, leaving the state untouched. -/
def constIoctl (r : Nat) (e : Option GoError) : IoctlFunc σ :=
  fun s _ _ _ => ((r, e), s)

/-- Recording stand-in primitive: appends every call it receives to the
trace state and answers with `respond`. -/
def recording (respond : Nat → Nat → IoctlArg → Nat × Option GoError) :
    IoctlFunc (List IoctlCall) :=
  fun t fd req argp => (respond fd req argp, t ++ [⟨fd, req, argp⟩])

/-- Response function reporting success with result 0 on every request. -/
def okRespond : Nat → Nat → IoctlArg → Nat × Option GoError :=
  fun _ _ _ => (0, none)

/-- Response function reporting success with a fixed result value. -/
def retRespond (r : Nat) : Nat → Nat → IoctlArg → Nat × Option GoError :=
  fun _ _ _ => (r, none)

/-- Runs a sequence of `AddMemorySlot` calls, each given as
`(size, flags, allocation address)`, stopping at the first call that does
not return normally (an error return or a panic). -/
def runAddMemorySlots (io : IoctlFunc σ) :
    VM → σ → List (Nat × Nat × Nat) → VM × σ
  | v, s, [] => (v, s)
  | v, s, c :: rest =>
    match AddMemorySlot io v s c.1 c.2.1 c.2.2 with
    | (GoOutcome.ok, v2, s2) => runAddMemorySlots io v2 s2 rest
    | (_, v2, s2) => (v2, s2)

/-- Sum of the `MemorySize` fields of a slot list. -/
def sizesSum (l : List MemorySlot) : Nat :=
  l.foldr (fun sl a => sl.MemorySize + a) 0

/-- Default `MemorySlot` used with `List.getD`. -/
def dSlot : MemorySlot := ⟨0, 0, 0, 0, 0, 0⟩

/-- A VM with one already registered slot, used to witness theorems. -/
def vmOne : VM := ⟨[⟨0, 0, 0, 4096, 90000, 4096⟩], 7, 0⟩

/-- C5: for every `n` above the fixed cap `kvmCapNrVCPUS = 9`, `AddVCPU n`
returns `ErrTooManyVCPUS` without invoking the request primitive — the
oracle state is returned untouched for every primitive — and the VM is
unchanged. -/
theorem addVCPU_cap_enforced {σ : Type} (io : IoctlFunc σ) (s : σ) (v : VM)
    (n : Nat) (h : kvmCapNrVCPUS < n) :
    AddVCPU io v s n = (GoOutcome.error GoError.errTooManyVCPUS, v, s) := by
  unfold AddVCPU
  rw [if_pos h]

/-- Witness for C5: `AddVCPU 10` on a fresh VM with the recording stand-in
is rejected with `ErrTooManyVCPUS`, the trace stays empty (no request
issued), and the VM is unchanged. -/
theorem addVCPU_cap_enforced_witness :
    AddVCPU (recording okRespond) ⟨[], 3, 0⟩ [] 10
      = (GoOutcome.error GoError.errTooManyVCPUS, ⟨[], 3, 0⟩, []) :=
  addVCPU_cap_enforced (recording okRespond) [] ⟨[], 3, 0⟩ 10 (by decide)

/-- C9: the cap boundary is inclusive — `AddVCPU 9` is not rejected: it
issues exactly one `KVM_CREATE_VCPU` request with scalar argument 9 on the
VM's descriptor and, when the primitive reports success with value `r`,
returns no error and stores `r` in `vcpufd`. -/
theorem addVCPU_cap_boundary_inclusive (v : VM) (t : List IoctlCall) (r : Nat) :
    AddVCPU (recording (retRespond r)) v t 9
      = (GoOutcome.ok, ⟨v.Memory, v.fd, r⟩,
          t ++ [⟨v.fd, kvmCreateVCPU, IoctlArg.scalar 9⟩]) := by
  unfold AddVCPU recording retRespond
  rw [if_neg (by decide)]

/-- C10: `AddVCPU` enforces no per-VM bound: for every VM state (hence
after any number of earlier successful `AddVCPU` calls) and every `n` at
most the cap, it issues the `KVM_CREATE_VCPU` request and, when the
primitive succeeds with value `r`, succeeds and overwrites the single
stored `vcpufd` with `r`; only the argument `n` is compared against the
cap, never a count of created VCPUs. -/
theorem addVCPU_no_per_vm_bound (v : VM) (t : List IoctlCall) (r n : Nat)
    (h : n ≤ kvmCapNrVCPUS) :
    AddVCPU (recording (retRespond r)) v t n
      = (GoOutcome.ok, ⟨v.Memory, v.fd, r⟩,
          t ++ [⟨v.fd, kvmCreateVCPU, IoctlArg.scalar n⟩]) := by
  unfold AddVCPU recording retRespond
  rw [if_neg (Nat.not_lt.mpr h)]

/-- Witness for C10: on a VM whose `vcpufd` already holds 5 (a previous
success), `AddVCPU 4` succeeds again and overwrites `vcpufd` with 11. -/
theorem addVCPU_no_per_vm_bound_witness :
    AddVCPU (recording (retRespond 11)) ⟨[], 3, 5⟩ [] 4
      = (GoOutcome.ok, ⟨[], 3, 11⟩,
          [⟨3, kvmCreateVCPU, IoctlArg.scalar 4⟩]) :=
  addVCPU_no_per_vm_bound ⟨[], 3, 5⟩ [] 11 4 (by decide)

/-- C8: `CreateVM t` issues the `KVM_CREATE_VM` request with machine type
`t` as scalar argument on the Client's device descriptor, and when the
primitive succeeds with value `r` returns a VM whose descriptor is `r`
and whose `Memory` sequence is empty. -/
theorem createVM_ok (c : Client) (t : List IoctlCall) (r mt : Nat) :
    CreateVM (recording (retRespond r)) c t mt
      = (Except.ok ⟨[], r, 0⟩, t ++ [⟨c.kvm, kvmCreateVM, IoctlArg.scalar mt⟩]) := by
  unfold CreateVM recording retRespond
  rfl

/-- C7 (the code's actual behaviour at the failing input): `AddMemorySlot`
with size 0 panics with an index-out-of-range error at `&memory[0]` before
reaching the request primitive — the recording stand-in receives no call —
and appends nothing. -/
theorem addMemorySlot_zero_size_panics :
    AddMemorySlot (recording okRespond) ⟨[], 3, 0⟩ [] 0 0 4096
      = (GoOutcome.panicked PanicKind.indexOutOfRange, ⟨[], 3, 0⟩, []) := by
  decide

/-- C3: when the registration request issued by `AddMemorySlot` reports a
syscall error, or a non-zero result with no error, `AddMemorySlot` returns
an error (that syscall error, resp. the allocation-rejected error) and the
VM is unchanged: same `Memory` sequence, no partially registered slot.
The bounds `0 < n ≤ maxInt` state that the call reaches the registration
request at all (outside them the call panics at allocation instead, and no
request is issued). -/
theorem addMemorySlot_rejection_no_trace {σ : Type} (s : σ) (v : VM)
    (n fl ad r : Nat) (e : Option GoError)
    (hn : 0 < n) (hmax : n ≤ maxInt) (hfail : e ≠ none ∨ r ≠ 0) :
    AddMemorySlot (constIoctl r e) v s n fl ad
      = (GoOutcome.error (e.getD GoError.failedToAddMemorySlot), v, s) := by
  unfold AddMemorySlot constIoctl
  rw [if_neg (Nat.not_lt.mpr hmax), if_neg (Nat.pos_iff_ne_zero.mp hn)]
  cases e with
  | some ge => rfl
  | none =>
    have hr : r ≠ 0 := by
      rcases hfail with hh | hh
      · exact absurd rfl hh
      · exact hh
    simp [hr]

/-- Witness for C3: a registration request answered with result 1 and no
error leaves a one-slot VM exactly as it was and returns the
allocation-rejected error. -/
theorem addMemorySlot_rejection_no_trace_witness :
    AddMemorySlot (constIoctl 1 none) vmOne () 1024 0 4096
      = (GoOutcome.error GoError.failedToAddMemorySlot, vmOne, ()) :=
  addMemorySlot_rejection_no_trace () vmOne 1024 0 4096 1 none
    (by decide) (by decide) (Or.inr (by decide))

/-- Response function of a stand-in whose get-API-version answer is `V`
with no error. -/
def versionRespond (V : Nat) : Nat → Nat → IoctlArg → Nat × Option GoError :=
  fun _ _ _ => (V, none)

/-- Response function of a stand-in whose version request fails with the
syscall-level error `e` (alongside result value `V`). -/
def versionErrRespond (V : Nat) (e : GoError) :
    Nat → Nat → IoctlArg → Nat × Option GoError :=
  fun _ _ _ => (V, some e)

/-- C4: version gate of `New`.  For every stand-in primitive returning
version `V` with no error: `New` succeeds (returning the client holding the
opened descriptor) iff `V = 12`; on `V ≠ 12` it returns precisely
`ErrIncorrectVersion` (not a syscall error) with the device descriptor
released, while on success the descriptor stays open; in either case the
primitive receives exactly the one get-version call and nothing afterward.
If the version request itself fails with a syscall error `e`, `New`
releases the descriptor and returns that same error `e`. -/
theorem new_version_gate (V fd : Nat) :
    ((New (recording (versionRespond V)) fd []).result = Except.ok ⟨fd⟩ ↔ V = Version)
    ∧ (V ≠ Version →
        (New (recording (versionRespond V)) fd []).result
            = Except.error GoError.errIncorrectVersion
          ∧ (New (recording (versionRespond V)) fd []).closed = true)
    ∧ (V = Version → (New (recording (versionRespond V)) fd []).closed = false)
    ∧ ((New (recording (versionRespond V)) fd []).finalState
        = [⟨fd, kvmGetAPIVersion, IoctlArg.scalar 0⟩])
    ∧ (∀ e : GoError,
        (New (recording (versionErrRespond V e)) fd []).result = Except.error e
          ∧ (New (recording (versionErrRespond V e)) fd []).closed = true
          ∧ (New (recording (versionErrRespond V e)) fd []).finalState
              = [⟨fd, kvmGetAPIVersion, IoctlArg.scalar 0⟩]) := by
  unfold New APIVersion recording versionRespond versionErrRespond
  by_cases hV : V = Version
  · subst hV
    simp
  · simp [hV]

/-- Witness for C4: a stand-in reporting version 11 makes `New` fail with
`ErrIncorrectVersion` and release the device descriptor. -/
theorem new_version_gate_witness :
    (New (recording (versionRespond 11)) 3 []).result
        = Except.error GoError.errIncorrectVersion
      ∧ (New (recording (versionRespond 11)) 3 []).closed = true :=
  (new_version_gate 11 3).2.1 (by decide)

/-- C6: request-code integrity.  Against a recording stand-in with an
arbitrary response function, each public operation appends exactly one call
to the trace, with the documented request code and argument shape on the
appropriate descriptor: `APIVersion` issues `KVM_GET_API_VERSION` with
argument 0, `CreateVM` issues `KVM_CREATE_VM` with the machine type as
scalar, `AddMemorySlot` (for sizes `0 < n ≤ maxInt`, those that reach the
request at all) issues `KVM_SET_USER_MEMORY_REGION` with a pointer to a
region struct, and `AddVCPU` (for `n` within the cap) issues
`KVM_CREATE_VCPU` with `n` as scalar.  No operation issues any additional
request. -/
theorem request_code_integrity
    (resp : Nat → Nat → IoctlArg → Nat × Option GoError)
    (c : Client) (v : VM) (t : List IoctlCall) (mt n fl ad nv : Nat)
    (hn : 0 < n) (hmax : n ≤ maxInt) (hnv : nv ≤ kvmCapNrVCPUS) :
    (APIVersion (recording resp) c t).2
        = t ++ [⟨c.kvm, kvmGetAPIVersion, IoctlArg.scalar 0⟩]
    ∧ (CreateVM (recording resp) c t mt).2
        = t ++ [⟨c.kvm, kvmCreateVM, IoctlArg.scalar mt⟩]
    ∧ (∃ m : KvmUserspaceMemoryRegion,
        (AddMemorySlot (recording resp) v t n fl ad).2.2
          = t ++ [⟨v.fd, kvmSetUserMemoryRegion, IoctlArg.region m⟩])
    ∧ (AddVCPU (recording resp) v t nv).2.2
        = t ++ [⟨v.fd, kvmCreateVCPU, IoctlArg.scalar nv⟩] := by
  refine ⟨rfl, ?_, ?_, ?_⟩
  · unfold CreateVM recording
    rcases hresp : resp c.kvm kvmCreateVM (IoctlArg.scalar mt) with ⟨r, e⟩
    cases e <;> simp [hresp]
  · refine ⟨⟨v.Memory.length % U32, fl % U32, nextGPA v.Memory, n, ad % U64⟩, ?_⟩
    unfold AddMemorySlot recording
    rw [if_neg (Nat.not_lt.mpr hmax), if_neg (Nat.pos_iff_ne_zero.mp hn)]
    rcases hresp : resp v.fd kvmSetUserMemoryRegion
        (IoctlArg.region ⟨v.Memory.length % U32, fl % U32, nextGPA v.Memory, n, ad % U64⟩)
      with ⟨r, e⟩
    cases e with
    | none =>
      simp only [recording, hresp]
      split <;> simp
    | some ge => simp [recording, hresp]
  · unfold AddVCPU recording
    rw [if_neg (Nat.not_lt.mpr hnv)]
    rcases hresp : resp v.fd kvmCreateVCPU (IoctlArg.scalar nv) with ⟨r, e⟩
    cases e <;> simp [hresp]

/-- Witness for C6: the four operations at concrete inputs against the
always-success recording stand-in each record exactly their documented
request. -/
theorem request_code_integrity_witness :
    (APIVersion (recording okRespond) ⟨4⟩ []).2
        = [⟨4, kvmGetAPIVersion, IoctlArg.scalar 0⟩]
    ∧ (CreateVM (recording okRespond) ⟨4⟩ [] 0).2
        = [⟨4, kvmCreateVM, IoctlArg.scalar 0⟩]
    ∧ (∃ m : KvmUserspaceMemoryRegion,
        (AddMemorySlot (recording okRespond) ⟨[], 3, 0⟩ [] 1024 0 4096).2.2
          = [⟨3, kvmSetUserMemoryRegion, IoctlArg.region m⟩])
    ∧ (AddVCPU (recording okRespond) ⟨[], 3, 0⟩ [] 1).2.2
        = [⟨3, kvmCreateVCPU, IoctlArg.scalar 1⟩] :=
  request_code_integrity okRespond ⟨4⟩ ⟨[], 3, 0⟩ [] 0 1024 0 4096 1
    (by decide) (by decide) (by decide)

/-- Closed form of the slots appended by a run of `AddMemorySlot` calls
`(size, flags, allocation address)` against the always-success primitive,
starting from `len` existing slots and next base address `gpa`: each call
with a representable non-zero size appends one slot and advances the base
by its size in `uint64` arithmetic; a zero or oversize call panics and
stops the run. -/
def slotsSpec : Nat → Nat → List (Nat × Nat × Nat) → List MemorySlot
  | _, _, [] => []
  | len, gpa, c :: rest =>
    if maxInt < c.1 then []
    else if c.1 = 0 then []
    else ⟨len % U32, c.2.1 % U32, gpa, c.1, c.2.2 % U64, c.1⟩ ::
      slotsSpec (len + 1) ((gpa + c.1) % U64) rest

theorem nextGPA_concat (l : List MemorySlot) (x : MemorySlot) :
    nextGPA (l ++ [x]) = (x.GuestPhysAddr + x.MemorySize) % U64 := by
  unfold nextGPA
  rw [List.getLast?_concat]

theorem addMemorySlot_okIoctl (v : VM) (n fl ad : Nat) :
    AddMemorySlot okIoctl v () n fl ad =
      if maxInt < n then (GoOutcome.panicked PanicKind.makeSliceLenOutOfRange, v, ())
      else if n = 0 then (GoOutcome.panicked PanicKind.indexOutOfRange, v, ())
      else (GoOutcome.ok,
        ⟨v.Memory ++ [⟨v.Memory.length % U32, fl % U32, nextGPA v.Memory, n, ad % U64, n⟩],
          v.fd, v.vcpufd⟩, ()) := rfl

theorem runAddMemorySlots_okIoctl (calls : List (Nat × Nat × Nat)) : ∀ v : VM,
    runAddMemorySlots okIoctl v () calls =
      (⟨v.Memory ++ slotsSpec v.Memory.length (nextGPA v.Memory) calls,
        v.fd, v.vcpufd⟩, ()) := by
  induction calls with
  | nil =>
    intro v
    simp [runAddMemorySlots, slotsSpec]
  | cons c rest ih =>
    intro v
    obtain ⟨n, fl, ad⟩ := c
    by_cases h1 : maxInt < n
    · simp [runAddMemorySlots, addMemorySlot_okIoctl, slotsSpec, h1]
    · by_cases h2 : n = 0
      · simp [runAddMemorySlots, addMemorySlot_okIoctl, slotsSpec, h1, h2]
      · rw [runAddMemorySlots, addMemorySlot_okIoctl, if_neg h1, if_neg h2]
        refine Eq.trans (ih ⟨v.Memory ++
          [⟨v.Memory.length % U32, fl % U32, nextGPA v.Memory, n, ad % U64, n⟩],
          v.fd, v.vcpufd⟩) ?_
        simp [slotsSpec, h1, h2, nextGPA_concat, List.append_assoc]

theorem slotsSpec_gpa (calls : List (Nat × Nat × Nat)) :
    ∀ len gpa, gpa % U64 = gpa → ∀ i, i < (slotsSpec len gpa calls).length →
      ((slotsSpec len gpa calls).getD i dSlot).GuestPhysAddr
        = (gpa + sizesSum ((slotsSpec len gpa calls).take i)) % U64 := by
  induction calls with
  | nil =>
    intro len gpa _ i hi
    simp [slotsSpec] at hi
  | cons c rest ih =>
    intro len gpa hg i hi
    obtain ⟨n, fl, ad⟩ := c
    by_cases h1 : maxInt < n
    · simp [slotsSpec, h1] at hi
    by_cases h2 : n = 0
    · simp [slotsSpec, h1, h2] at hi
    cases i with
    | zero =>
      simp [slotsSpec, h1, h2, sizesSum, hg]
    | succ j =>
      have hj : j < (slotsSpec (len + 1) ((gpa + n) % U64) rest).length := by
        have := hi
        simp [slotsSpec, h1, h2] at this
        omega
      have hg2 : ((gpa + n) % U64) % U64 = (gpa + n) % U64 :=
        Nat.mod_mod_of_dvd _ dvd_rfl
      have hrec := ih (len + 1) ((gpa + n) % U64) hg2 j hj
      simp only [slotsSpec, if_neg h1, if_neg h2, List.getD_cons_succ,
        List.take_succ_cons]
      rw [hrec]
      show ((gpa + n) % U64 + sizesSum (List.take j _)) % U64 = _
      rw [Nat.mod_add_mod]
      simp [sizesSum, Nat.add_assoc]

theorem nextGPA_nil : nextGPA [] = 0 := rfl

/-- C1 (amended): address packing modulo `2 ^ 64`.  For every sequence of
`AddMemorySlot` calls against the always-success primitive, starting from a
fresh VM, the `i`-th appended slot's `GuestPhysAddr` equals the sum of the
sizes of the appended slots `0..i-1` reduced modulo `2 ^ 64` (Go `uint64`
arithmetic). -/
theorem addMemorySlot_packing_mod (calls : List (Nat × Nat × Nat)) (fd i : Nat)
    (h : i < ((runAddMemorySlots okIoctl ⟨[], fd, 0⟩ () calls).1.Memory).length) :
    (((runAddMemorySlots okIoctl ⟨[], fd, 0⟩ () calls).1.Memory).getD i dSlot).GuestPhysAddr
      = sizesSum (((runAddMemorySlots okIoctl ⟨[], fd, 0⟩ () calls).1.Memory).take i)
          % U64 := by
  have hrun := runAddMemorySlots_okIoctl calls ⟨[], fd, 0⟩
  rw [hrun] at h ⊢
  simp only [List.nil_append, nextGPA_nil, List.length_nil] at h ⊢
  have := slotsSpec_gpa calls 0 0 (by rfl) i h
  simpa using this

/-- Witness for C1: the spec's own example — sizes 1024, 2048, 512 yield
base addresses 0, 1024, 3072; in particular slot 2's base address is the
sum of the first two sizes. -/
theorem addMemorySlot_packing_mod_witness :
    2 < ((runAddMemorySlots okIoctl ⟨[], 3, 0⟩ ()
          [(1024, 0, 4096), (2048, 0, 8192), (512, 0, 12288)]).1.Memory).length
    ∧ (((runAddMemorySlots okIoctl ⟨[], 3, 0⟩ ()
          [(1024, 0, 4096), (2048, 0, 8192), (512, 0, 12288)]).1.Memory).getD 2 dSlot).GuestPhysAddr
        = sizesSum (((runAddMemorySlots okIoctl ⟨[], 3, 0⟩ ()
            [(1024, 0, 4096), (2048, 0, 8192), (512, 0, 12288)]).1.Memory).take 2) % U64 :=
  ⟨by decide,
    addMemorySlot_packing_mod
      [(1024, 0, 4096), (2048, 0, 8192), (512, 0, 12288)] 3 2 (by decide)⟩

/-- Counterexample to C1 as stated: four successful calls with sizes
`2 ^ 63 - 1`, `2 ^ 63 - 1`, 2, 1 (each a legal Go slice length, each
reported successful by the primitive) leave the fourth slot with
`GuestPhysAddr = 0`, whereas the sum of the sizes of slots 0..2 is
`2 ^ 64`: the `uint64` addition wrapped around. -/
theorem addMemorySlot_packing_overflow_cex :
    (((runAddMemorySlots okIoctl ⟨[], 3, 0⟩ ()
        [(maxInt, 0, 4096), (maxInt, 0, 8192), (2, 0, 12288), (1, 0, 16384)]).1.Memory).map
          MemorySlot.GuestPhysAddr)
      = [0, maxInt, 2 * maxInt % U64, 0]
    ∧ sizesSum (((runAddMemorySlots okIoctl ⟨[], 3, 0⟩ ()
        [(maxInt, 0, 4096), (maxInt, 0, 8192), (2, 0, 12288), (1, 0, 16384)]).1.Memory).take 3)
      = U64
    ∧ (((runAddMemorySlots okIoctl ⟨[], 3, 0⟩ ()
        [(maxInt, 0, 4096), (maxInt, 0, 8192), (2, 0, 12288), (1, 0, 16384)]).1.Memory).getD 3 dSlot).GuestPhysAddr
        ≠ U64 := by
  decide

/-- Length and slot indices of the appended slots, in closed form: when
every requested size is non-zero and representable, every call appends and
the `i`-th appended slot's `Slot` field is `(len + i) % 2 ^ 32`. -/
theorem slotsSpec_slots (calls : List (Nat × Nat × Nat)) :
    ∀ len gpa, (∀ c ∈ calls, c.1 ≠ 0 ∧ c.1 ≤ maxInt) →
      (slotsSpec len gpa calls).length = calls.length
      ∧ ∀ i, i < calls.length →
          ((slotsSpec len gpa calls).getD i dSlot).Slot = (len + i) % U32 := by
  induction calls with
  | nil =>
    intro len gpa _
    exact ⟨rfl, by intro i hi; simp at hi⟩
  | cons c rest ih =>
    intro len gpa hall
    obtain ⟨n, fl, ad⟩ := c
    have hc := hall (n, fl, ad) (List.mem_cons_self _ _)
    have h2 : n ≠ 0 := hc.1
    have h1 : ¬ maxInt < n := Nat.not_lt.mpr hc.2
    have hrest : ∀ c ∈ rest, c.1 ≠ 0 ∧ c.1 ≤ maxInt :=
      fun c hc => hall c (List.mem_cons_of_mem _ hc)
    have hrec := ih (len + 1) ((gpa + n) % U64) hrest
    constructor
    · simp [slotsSpec, h1, h2, hrec.1]
    · intro i hi
      cases i with
      | zero => simp [slotsSpec, h1, h2]
      | succ j =>
        have hj : j < rest.length := by
          simp at hi
          omega
        have := hrec.2 j hj
        simp only [slotsSpec, if_neg h1, if_neg h2, List.getD_cons_succ]
        rw [this]
        have : len + 1 + j = len + (j + 1) := by omega
        rw [this]

/-- C2 (amended): slot index monotonicity.  For every sequence of `N`
`AddMemorySlot` calls against the always-success primitive in which every
size is non-zero (a zero size panics before the request) and at most the
maximum slice length, the resulting `Memory` has exactly `N` slots in call
order and the `i`-th slot's `Slot` field is `i % 2 ^ 32` — that is, exactly
`0..N-1` whenever `N ≤ 2 ^ 32`. -/
theorem addMemorySlot_slot_indices (calls : List (Nat × Nat × Nat)) (fd : Nat)
    (hall : ∀ c ∈ calls, c.1 ≠ 0 ∧ c.1 ≤ maxInt) :
    ((runAddMemorySlots okIoctl ⟨[], fd, 0⟩ () calls).1.Memory).length = calls.length
    ∧ ∀ i, i < calls.length →
        (((runAddMemorySlots okIoctl ⟨[], fd, 0⟩ () calls).1.Memory).getD i dSlot).Slot
          = i % U32 := by
  have hrun := runAddMemorySlots_okIoctl calls ⟨[], fd, 0⟩
  rw [hrun]
  simp only [List.nil_append, nextGPA_nil, List.length_nil]
  have h := slotsSpec_slots calls 0 0 hall
  exact ⟨h.1, fun i hi => by simpa using h.2 i hi⟩

/-- Witness for C2: three calls with sizes 1024, 2048, 512 give three slots
and slot 1 carries index 1. -/
theorem addMemorySlot_slot_indices_witness :
    ((runAddMemorySlots okIoctl ⟨[], 3, 0⟩ ()
        [(1024, 0, 4096), (2048, 0, 8192), (512, 0, 12288)]).1.Memory).length = 3
    ∧ (((runAddMemorySlots okIoctl ⟨[], 3, 0⟩ ()
        [(1024, 0, 4096), (2048, 0, 8192), (512, 0, 12288)]).1.Memory).getD 1 dSlot).Slot
        = 1 % U32 :=
  ⟨(addMemorySlot_slot_indices
      [(1024, 0, 4096), (2048, 0, 8192), (512, 0, 12288)] 3 (by decide)).1,
    (addMemorySlot_slot_indices
      [(1024, 0, 4096), (2048, 0, 8192), (512, 0, 12288)] 3 (by decide)).2 1 (by decide)⟩

/-- Counterexample to C2 as stated: a sequence of `N = 1` calls with the
arbitrary size 0 against the always-success primitive leaves the `Memory`
sequence with 0 slots, not 1 — the call panics at `&memory[0]` before the
request and appends nothing. -/
theorem addMemorySlot_slot_indices_zero_size_cex :
    ((runAddMemorySlots okIoctl ⟨[], 3, 0⟩ () [(0, 0, 4096)]).1.Memory).length = 0
    ∧ (0 : Nat) ≠ 1 := by
  decide

end Darity
